import Mathlib

/-!
Shallow embedding of the go-attr package (`attr.go`): Python-style runtime
field access over Go structs built on the `reflect` library.

Values of type `interface{}` are modelled by `GoVal`; Go's runtime types by
`GoType` (named struct types are nominal, so a struct type is identified by
its name, as in Go); `reflect.Kind` by `RKind`.  A struct value carries its
fields in declaration order; each field carries its name, declared type, tag
set and current value.  A non-nil pointer `vPtr t` carries its pointee, so a
mutation through the pointer is modelled by returning the updated pointee.
Go maps returned by `Values`/`Tags`/`Kinds` are modelled as association
lists in declaration order (only their entry set is observable in Go).
-/

namespace Attr

/-- Go runtime types, as compared by `reflect.Type` equality.  Named struct
types are nominal in Go, so `structT` carries only the type name. -/
inductive GoType where
  | intT : GoType
  | float64T : GoType
  | stringT : GoType
  | boolT : GoType
  | ptrT : GoType → GoType
  | sliceT : GoType → GoType
  | mapT : GoType → GoType → GoType
  | interfaceT : GoType
  | structT : String → GoType
deriving DecidableEq, Repr

/-- One struct field: name, declared type, struct tags (key/value pairs, as
written in the declaration), and current value. -/
structure Field (α : Type) where
  name : String
  typ : GoType
  tags : List (String × String)
  val : α
deriving Repr

/-- A Go value held in an `interface\x7b\x7d`: the inputs and outputs of the
package's API.  `vNil` is the untyped nil interface; `vNilPtr t` is a typed
nil pointer `(*t)(nil)`; `vPtr v` is a non-nil pointer whose pointee is `v`;
`vStruct n fs` is a value of the named struct type `n` with fields `fs` in
declaration order. -/
inductive GoVal where
  | vInt : Int → GoVal
  | vFloat : Nat → GoVal
  | vString : String → GoVal
  | vBool : Bool → GoVal
  | vNil : GoVal
  | vNilPtr : GoType → GoVal
  | vPtr : GoVal → GoVal
  | vSlice : GoType → List GoVal → GoVal
  | vMapV : GoType → GoType → List (GoVal × GoVal) → GoVal
  | vStruct : String → List (Field GoVal) → GoVal
deriving Repr

/-- The `reflect.Kind` of a value or type. -/
inductive RKind where
  | invalid : RKind
  | intK : RKind
  | float64K : RKind
  | stringK : RKind
  | boolK : RKind
  | ptrK : RKind
  | sliceK : RKind
  | mapK : RKind
  | interfaceK : RKind
  | structK : RKind
deriving DecidableEq, Repr

/-- The five package-level error values of `attr.go`. -/
inductive AttrErr where
  | errNoField : AttrErr
  | errNotPtr : AttrErr
  | errNotStruct : AttrErr
  | errUnexportedField : AttrErr
  | errMismatchValue : AttrErr
deriving DecidableEq, Repr

/-- Kind of a runtime type (`reflect.Type.Kind`). -/
def kindOfType : GoType → RKind
  | .intT => .intK
  | .float64T => .float64K
  | .stringT => .stringK
  | .boolT => .boolK
  | .ptrT _ => .ptrK
  | .sliceT _ => .sliceK
  | .mapT _ _ => .mapK
  | .interfaceT => .interfaceK
  | .structT _ => .structK

/-- Kind of a value (`reflect.ValueOf(obj).Kind()`); the untyped nil
interface has kind `Invalid`. -/
def kindOf : GoVal → RKind
  | .vInt _ => .intK
  | .vFloat _ => .float64K
  | .vString _ => .stringK
  | .vBool _ => .boolK
  | .vNil => .invalid
  | .vNilPtr _ => .ptrK
  | .vPtr _ => .ptrK
  | .vSlice _ _ => .sliceK
  | .vMapV _ _ _ => .mapK
  | .vStruct _ _ => .structK

/-- Runtime type of a value (`reflect.TypeOf`); `none` models the nil
`reflect.Type` returned for an untyped nil interface. -/
def typeOf : GoVal → Option GoType
  | .vInt _ => some .intT
  | .vFloat _ => some .float64T
  | .vString _ => some .stringT
  | .vBool _ => some .boolT
  | .vNil => none
  | .vNilPtr t => some (.ptrT t)
  | .vPtr v => (typeOf v).map .ptrT
  | .vSlice t _ => some (.sliceT t)
  | .vMapV k v _ => some (.mapT k v)
  | .vStruct n _ => some (.structT n)

/-- Dereference a pointer value (`reflect.Value.Elem`).  On a nil pointer
Go yields the zero `Value` (kind `Invalid`), modelled by `vNil`; the package
only calls `Elem` after checking the kind is `Ptr`. -/
def elemVal : GoVal → GoVal
  | .vPtr v => v
  | _ => .vNil

/-- Field list of a struct value (empty for non-structs; the package only
reads fields after normalization has established a struct). -/
def structFields : GoVal → List (Field GoVal)
  | .vStruct _ fs => fs
  | _ => []

/-- Struct type name of a struct value. -/
def structName : GoVal → String
  | .vStruct n _ => n
  | _ => ""

/-- Go's export rule: a field is exported (visible) iff its name starts
with an upper-case letter.  `reflect`'s `CanInterface`/`CanSet` on an
addressable struct field and the `PkgPath == ""` test all reduce to this. -/
def isExported (name : String) : Bool :=
  !name.isEmpty && name.front.isUpper

/-- Field lookup by name (`reflect.Value.FieldByName` /
`reflect.Type.FieldByName`): the first field whose name matches exactly
(Go field names are unique per struct type, so at most one matches). -/
def fieldByName : List (Field GoVal) → String → Option (Field GoVal)
  | [], _ => none
  | f :: fs, fieldName =>
    if f.name == fieldName then some f else fieldByName fs fieldName

/-- Tag lookup (`reflect.StructTag.Get`): the value for `key`, or the empty
string when `key` is absent. -/
def tagGet (tags : List (String × String)) (key : String) : String :=
  match tags.find? (fun p => p.1 == key) with
  | some p => p.2
  | none => ""

/-- Embedding of `getReflectValue` (attr.go:248-261): accept a struct as
is, dereference a pointer to a struct exactly once, and reject everything
else with `ErrNotStruct`. -/
def getReflectValue (obj : GoVal) : Except AttrErr GoVal :=
  if kindOf obj = .structK then
    .ok obj
  else if kindOf obj = .ptrK ∧ kindOf (elemVal obj) = .structK then
    .ok (elemVal obj)
  else
    .error .errNotStruct

/-- Embedding of `GetValue` (attr.go:51-67). -/
def GetValue (obj : GoVal) (fieldName : String) : Except AttrErr GoVal := do
  let objValue ← getReflectValue obj
  match fieldByName (structFields objValue) fieldName with
  | none => .error .errNoField
  | some f =>
    if isExported f.name then
      .ok f.val
    else
      .error .errUnexportedField

/-- Embedding of `Has` (attr.go:71-80): existence via
`Type().FieldByName`, which ignores visibility. -/
def Has (obj : GoVal) (fieldName : String) : Except AttrErr Bool := do
  let objValue ← getReflectValue obj
  .ok (fieldByName (structFields objValue) fieldName).isSome

/-- Replace the value of every field named `fieldName`
(`reflect.Value.Set` on the field found by name; Go struct field names are
unique, so at most one field matches). -/
def setFieldVal : List (Field GoVal) → String → GoVal → List (Field GoVal)
  | [], _, _ => []
  | f :: fs, fieldName, v =>
    (if f.name == fieldName then { f with val := v } else f) ::
      setFieldVal fs fieldName v

/-- Embedding of `SetValue` (attr.go:87-113).  The checks run in source
order: pointer kind, struct pointee, field existence, exact runtime-type
equality of the new value, settability (exportedness).  On success the
mutation through the pointer is modelled by returning the updated pointee
struct; on error the caller's struct is untouched (the write is the last
statement of the Go function). -/
def SetValue (obj : GoVal) (fieldName : String) (newValue : GoVal) :
    Except AttrErr GoVal :=
  if kindOf obj ≠ .ptrK then
    .error .errNotPtr
  else
    let objValue := elemVal obj
    if kindOf objValue ≠ .structK then
      .error .errNotStruct
    else
      match fieldByName (structFields objValue) fieldName with
      | none => .error .errNoField
      | some f =>
        if some f.typ ≠ typeOf newValue then
          .error .errMismatchValue
        else if !isExported f.name then
          .error .errUnexportedField
        else
          .ok (.vStruct (structName objValue) (setFieldVal (structFields objValue) fieldName newValue))

/-- Embedding of `Names` (attr.go:117-135): exported field names in
declaration order. -/
def Names (obj : GoVal) : Except AttrErr (List String) := do
  let objValue ← getReflectValue obj
  .ok (((structFields objValue).filter (fun f => isExported f.name)).map (fun f => f.name))

/-- Embedding of `Values` (attr.go:139-157): name/value pairs of the
exported fields (a Go map, modelled as an association list in declaration
order). -/
def Values (obj : GoVal) : Except AttrErr (List (String × GoVal)) := do
  let objValue ← getReflectValue obj
  .ok (((structFields objValue).filter (fun f => isExported f.name)).map
    (fun f => (f.name, f.val)))

/-- Embedding of `GetTag` (attr.go:161-178): the tag value for `tagKey` on
the named field; `PkgPath != ""` (unexported) is refused. -/
def GetTag (obj : GoVal) (fieldName tagKey : String) : Except AttrErr String := do
  let objValue ← getReflectValue obj
  match fieldByName (structFields objValue) fieldName with
  | none => .error .errNoField
  | some f =>
    if !isExported f.name then
      .error .errUnexportedField
    else
      .ok (tagGet f.tags tagKey)

/-- Embedding of `Tags` (attr.go:182-200): for every exported field, the
tag value for `tagKey` (empty string when absent). -/
def Tags (obj : GoVal) (tagKey : String) : Except AttrErr (List (String × String)) := do
  let objValue ← getReflectValue obj
  .ok (((structFields objValue).filter (fun f => isExported f.name)).map
    (fun f => (f.name, tagGet f.tags tagKey)))

/-- String form of a kind (`reflect.Kind.String`). -/
def kindString : RKind → String
  | .invalid => "invalid"
  | .intK => "int"
  | .float64K => "float64"
  | .stringK => "string"
  | .boolK => "bool"
  | .ptrK => "ptr"
  | .sliceK => "slice"
  | .mapK => "map"
  | .interfaceK => "interface"
  | .structK => "struct"

/-- Embedding of `GetKind` (attr.go:204-220): the kind string of the named
field's declared type. -/
def GetKind (obj : GoVal) (fieldName : String) : Except AttrErr String := do
  let objValue ← getReflectValue obj
  match fieldByName (structFields objValue) fieldName with
  | none => .error .errNoField
  | some f =>
    if isExported f.name then
      .ok (kindString (kindOfType f.typ))
    else
      .error .errUnexportedField

/-- Embedding of `Kinds` (attr.go:224-242): kind strings of all exported
fields. -/
def Kinds (obj : GoVal) : Except AttrErr (List (String × String)) := do
  let objValue ← getReflectValue obj
  .ok (((structFields objValue).filter (fun f => isExported f.name)).map
    (fun f => (f.name, kindString (kindOfType f.typ))))

end Attr

namespace Attr

/-! ### Helper lemmas -/

/-- Looking up the written field name again after `setFieldVal` finds the
same field with its value replaced. -/
theorem fieldByName_setFieldVal {fs : List (Field GoVal)} {n : String}
    {f : Field GoVal} (v : GoVal) (h : fieldByName fs n = some f) :
    fieldByName (setFieldVal fs n v) n = some { f with val := v } := by
  induction fs with
  | nil => simp [fieldByName] at h
  | cons g gs ih =>
    by_cases hg : (g.name == n) = true
    · simp only [fieldByName, hg, if_true, Option.some.injEq] at h
      subst h
      simp [setFieldVal, fieldByName, hg]
    · simp only [fieldByName, hg] at h
      rw [if_neg (by simp [hg])] at h
      simp [setFieldVal, fieldByName, hg, ih h]

/-- If no field is named `n`, `setFieldVal` is the identity. -/
theorem setFieldVal_of_not_mem {fs : List (Field GoVal)} {n : String}
    (h : ∀ g ∈ fs, (g.name == n) = false) (v : GoVal) :
    setFieldVal fs n v = fs := by
  induction fs with
  | nil => rfl
  | cons g gs ih =>
    have hg : (g.name == n) = false := h g (by simp)
    simp only [setFieldVal, hg, Bool.false_eq_true, if_false, List.cons.injEq]
    exact ⟨trivial, ih (fun g' hg' => h g' (List.mem_cons_of_mem _ hg'))⟩

/-- Under unique field names, writing back the current value of the found
field leaves the field list unchanged. -/
theorem setFieldVal_self {fs : List (Field GoVal)} {n : String}
    {f : Field GoVal} (hnd : (fs.map (fun g => g.name)).Nodup)
    (h : fieldByName fs n = some f) :
    setFieldVal fs n f.val = fs := by
  induction fs with
  | nil => simp [fieldByName] at h
  | cons g gs ih =>
    simp only [List.map_cons, List.nodup_cons] at hnd
    by_cases hg : (g.name == n) = true
    · simp only [fieldByName, hg, if_true, Option.some.injEq] at h
      subst h
      have hne : g.name = n := by simpa using hg
      have htail : ∀ g' ∈ gs, (g'.name == n) = false := by
        intro g' hg'
        have hx : g'.name ≠ g.name :=
          fun hEq => hnd.1 (hEq ▸ List.mem_map_of_mem (fun x => x.name) hg')
        rw [hne] at hx
        simp [hx]
      simp only [setFieldVal, hg, if_true, List.cons.injEq]
      exact ⟨trivial, setFieldVal_of_not_mem htail g.val⟩
    · simp only [fieldByName, hg] at h
      rw [if_neg (by simp [hg])] at h
      simp only [setFieldVal, hg, Bool.false_eq_true, if_false, List.cons.injEq]
      exact ⟨trivial, ih hnd.2 h⟩

end Attr

namespace Attr

/-! ### Concrete fixtures (the `User` struct of the package's tests) -/

/-- Fields of the test struct `User`, in declaration order. -/
def userFields : List (Field GoVal) :=
  [{ name := "Username", typ := .stringT,
     tags := [("json", "username"), ("db", "uname")], val := .vString "srathi" },
   { name := "Age", typ := .intT,
     tags := [("json", "age"), ("meta", "important")], val := .vInt 30 },
   { name := "password", typ := .stringT, tags := [], val := .vString "my_secret_123" }]

/-- The test value `user`. -/
def userV : GoVal := .vStruct "User" userFields

/-- The `Age` field of `userV`. -/
def ageF : Field GoVal :=
  { name := "Age", typ := .intT, tags := [("json", "age"), ("meta", "important")],
    val := .vInt 30 }

/-- The hidden `password` field of `userV`. -/
def passwordF : Field GoVal :=
  { name := "password", typ := .stringT, tags := [], val := .vString "my_secret_123" }

/-! ### Claim theorems -/

/-- C1: `GetValue` on a visible field returns that field's current value;
and for a struct reachable through a single pointer, a visible field of
declared type `f.typ` and a new value `v` of exactly that type, `SetValue`
succeeds, and immediately afterwards `GetValue` on the updated struct
returns exactly `v`. -/
theorem C1_set_get_roundtrip (tn : String) (fs : List (Field GoVal))
    (fname : String) (f : Field GoVal) (v : GoVal)
    (hf : fieldByName fs fname = some f)
    (hvis : isExported f.name = true)
    (htyp : typeOf v = some f.typ) :
    GetValue (.vStruct tn fs) fname = .ok f.val ∧
    SetValue (.vPtr (.vStruct tn fs)) fname v =
      .ok (.vStruct tn (setFieldVal fs fname v)) ∧
    GetValue (.vStruct tn (setFieldVal fs fname v)) fname = .ok v := by
  refine ⟨?_, ?_, ?_⟩
  · simp [GetValue, getReflectValue, kindOf, structFields, hf, hvis,
      Except.instMonad, Except.bind]
  · simp [SetValue, kindOf, elemVal, structFields, structName, hf, htyp, hvis]
  · have hfind := fieldByName_setFieldVal v hf
    simp [GetValue, getReflectValue, kindOf, structFields, hfind, hvis,
      Except.instMonad, Except.bind]

/-- C1 witness: setting `Age` to `40` through a pointer to the test user
succeeds and reading `Age` back yields `40`. -/
theorem C1_set_get_roundtrip_witness :
    GetValue userV "Age" = .ok (.vInt 30) ∧
    SetValue (.vPtr userV) "Age" (.vInt 40) =
      .ok (.vStruct "User" (setFieldVal userFields "Age" (.vInt 40))) ∧
    GetValue (.vStruct "User" (setFieldVal userFields "Age" (.vInt 40))) "Age" =
      .ok (.vInt 40) :=
  C1_set_get_roundtrip "User" userFields "Age" ageF (.vInt 40) rfl rfl rfl

/-- C2 counterexample: on the hidden field `password` with a value of the
wrong runtime type, `SetValue` reports `ErrMismatchValue`, not
`ErrUnexportedField`, so visibility is not enforced before type
compatibility. -/
theorem C2_counterexample :
    SetValue (.vPtr userV) "password" (.vInt 5) = .error .errMismatchValue ∧
    SetValue (.vPtr userV) "password" (.vInt 5) ≠ .error .errUnexportedField := by
  refine ⟨rfl, ?_⟩
  rw [show SetValue (.vPtr userV) "password" (.vInt 5) = .error .errMismatchValue
    from rfl]
  simp

/-- C2 amended: `SetValue` checks type compatibility before visibility: on
a hidden field it fails with `ErrUnexportedField` only when the new
value's runtime type equals the field's declared type; with any other
runtime type it fails with `ErrMismatchValue` instead. -/
theorem C2_amended (tn : String) (fs : List (Field GoVal)) (fname : String)
    (f : Field GoVal) (v : GoVal)
    (hf : fieldByName fs fname = some f)
    (hhid : isExported f.name = false) :
    (typeOf v = some f.typ →
      SetValue (.vPtr (.vStruct tn fs)) fname v = .error .errUnexportedField) ∧
    (typeOf v ≠ some f.typ →
      SetValue (.vPtr (.vStruct tn fs)) fname v = .error .errMismatchValue) := by
  constructor
  · intro ht
    simp [SetValue, kindOf, elemVal, structFields, hf, ht, hhid]
  · intro ht
    have ht' : some f.typ ≠ typeOf v := fun hEq => ht hEq.symm
    simp [SetValue, kindOf, elemVal, structFields, hf, ht']

/-- C2 amended witness: on `password` (hidden), a `string` value yields
`ErrUnexportedField` while an `int` value yields `ErrMismatchValue`. -/
theorem C2_amended_witness :
    SetValue (.vPtr userV) "password" (.vString "new-password") =
      .error .errUnexportedField ∧
    SetValue (.vPtr userV) "password" (.vInt 7) = .error .errMismatchValue :=
  ⟨(C2_amended "User" userFields "password" passwordF (.vString "new-password")
      rfl rfl).1 rfl,
   (C2_amended "User" userFields "password" passwordF (.vInt 7)
      rfl rfl).2 (by decide)⟩

/-- C3 counterexample: an `int` input, which is neither a record nor a
reference, makes `SetValue` fail with `ErrNotPtr` (the not-addressable
error), not with the normalizer's `ErrNotStruct`. -/
theorem C3_counterexample :
    SetValue (.vInt 3) "X" (.vInt 1) = .error .errNotPtr ∧
    SetValue (.vInt 3) "X" (.vInt 1) ≠ .error .errNotStruct := by
  refine ⟨rfl, ?_⟩
  rw [show SetValue (.vInt 3) "X" (.vInt 1) = .error .errNotPtr from rfl]
  simp

/-- C3 amended: `SetValue` does not call the normalizer but checks
pointer-ness itself: every non-pointer input — a struct passed by value
and any value that is neither a record nor a reference alike — fails with
`ErrNotPtr` (`NotAddressable`), and a pointer whose single dereference is
not a struct fails with `ErrNotStruct` (`NotARecord`). -/
theorem C3_amended (obj : GoVal) (fname : String) (v : GoVal) :
    (kindOf obj ≠ .ptrK → SetValue obj fname v = .error .errNotPtr) ∧
    (kindOf obj = .ptrK → kindOf (elemVal obj) ≠ .structK →
      SetValue obj fname v = .error .errNotStruct) := by
  constructor
  · intro h
    simp [SetValue, h]
  · intro h hs
    simp [SetValue, h, hs]

/-- C3 amended witness: a struct passed by value and a pointer to an `int`
hit the two `SetValue` rejection branches. -/
theorem C3_amended_witness :
    SetValue userV "Username" (.vString "x") = .error .errNotPtr ∧
    SetValue (.vPtr (.vInt 3)) "X" (.vInt 1) = .error .errNotStruct :=
  ⟨(C3_amended userV "Username" (.vString "x")).1 (by decide),
   (C3_amended (.vPtr (.vInt 3)) "X" (.vInt 1)).2 rfl (by decide)⟩

/-- C4: `SetValue` requires the new value's runtime type to equal the
field's declared type exactly; on any mismatch it fails with
`ErrMismatchValue`, and since the error returns before the write (the last
statement of the Go function), the field and the whole struct are left
unchanged — in this embedding an error result carries no updated struct. -/
theorem C4_type_mismatch (tn : String) (fs : List (Field GoVal)) (fname : String)
    (f : Field GoVal) (v : GoVal)
    (hf : fieldByName fs fname = some f)
    (htyp : typeOf v ≠ some f.typ) :
    SetValue (.vPtr (.vStruct tn fs)) fname v = .error .errMismatchValue := by
  have ht' : some f.typ ≠ typeOf v := fun hEq => htyp hEq.symm
  simp [SetValue, kindOf, elemVal, structFields, hf, ht']

/-- C4 witness: assigning the float `40.5` to the `int` field `Age` fails
with `ErrMismatchValue` (the package's own test case). -/
theorem C4_type_mismatch_witness :
    SetValue (.vPtr userV) "Age" (.vFloat 405) = .error .errMismatchValue :=
  C4_type_mismatch "User" userFields "Age" ageF (.vFloat 405) rfl (by decide)

end Attr

namespace Attr

/-- C5: when a field exists but is hidden (unexported), the existence
check `Has` returns `true` with no error, while `GetValue`, `GetTag` and
`GetKind` on it all fail with `ErrUnexportedField`. -/
theorem C5_hidden_access (obj s : GoVal) (fname tagKey : String)
    (f : Field GoVal)
    (hn : getReflectValue obj = .ok s)
    (hf : fieldByName (structFields s) fname = some f)
    (hhid : isExported f.name = false) :
    Has obj fname = .ok true ∧
    GetValue obj fname = .error .errUnexportedField ∧
    GetTag obj fname tagKey = .error .errUnexportedField ∧
    GetKind obj fname = .error .errUnexportedField := by
  refine ⟨?_, ?_, ?_, ?_⟩ <;>
    simp [Has, GetValue, GetTag, GetKind, hn, hf, hhid,
      Except.instMonad, Except.bind]

/-- C5 witness: the hidden `password` field of the test user exists for
`Has` but is refused by the three accessors. -/
theorem C5_hidden_access_witness :
    Has userV "password" = .ok true ∧
    GetValue userV "password" = .error .errUnexportedField ∧
    GetTag userV "password" "json" = .error .errUnexportedField ∧
    GetKind userV "password" = .error .errUnexportedField :=
  C5_hidden_access userV userV "password" "json" passwordF rfl rfl rfl

/-- C6: normalization accepts exactly a struct or a single-level pointer
to a struct; everything else — a pointer to a pointer to a struct, a
pointer to a non-struct, a nil pointer, a plain non-struct value — is
rejected with `ErrNotStruct`, and every read operation then returns that
same error. -/
theorem C6_normalizer (obj : GoVal) (fname tagKey : String) :
    ((∃ s, getReflectValue obj = .ok s) ↔
      (kindOf obj = .structK ∨
        (kindOf obj = .ptrK ∧ kindOf (elemVal obj) = .structK))) ∧
    (¬(kindOf obj = .structK ∨
        (kindOf obj = .ptrK ∧ kindOf (elemVal obj) = .structK)) →
      getReflectValue obj = .error .errNotStruct ∧
      GetValue obj fname = .error .errNotStruct ∧
      Has obj fname = .error .errNotStruct ∧
      Names obj = .error .errNotStruct ∧
      Values obj = .error .errNotStruct ∧
      GetTag obj fname tagKey = .error .errNotStruct ∧
      Tags obj tagKey = .error .errNotStruct ∧
      GetKind obj fname = .error .errNotStruct ∧
      Kinds obj = .error .errNotStruct) := by
  by_cases h1 : kindOf obj = .structK
  · exact ⟨by simp [getReflectValue, h1], fun hcon => absurd (Or.inl h1) hcon⟩
  · by_cases h2 : kindOf obj = .ptrK ∧ kindOf (elemVal obj) = .structK
    · exact ⟨by simp [getReflectValue, h1, h2], fun hcon => absurd (Or.inr h2) hcon⟩
    · have he : getReflectValue obj = .error .errNotStruct := by
        simp [getReflectValue, h1, h2]
      constructor
      · constructor
        · rintro ⟨s, hs⟩
          rw [he] at hs
          cases hs
        · rintro (h | h)
          · exact absurd h h1
          · exact absurd h h2
      · intro _
        refine ⟨he, ?_, ?_, ?_, ?_, ?_, ?_, ?_, ?_⟩ <;>
          simp [GetValue, Has, Names, Values, GetTag, Tags, GetKind, Kinds,
            he, Except.instMonad, Except.bind]

/-- C6 witness: the four rejected shapes named by the claim — a pointer to
a pointer to a struct, a nil pointer, a pointer to a non-struct, and a
plain non-struct value — each make a read operation fail with
`ErrNotStruct`. -/
theorem C6_normalizer_witness :
    Names (.vPtr (.vPtr userV)) = .error .errNotStruct ∧
    Values (.vNilPtr (.structT "User")) = .error .errNotStruct ∧
    GetValue (.vPtr (.vString "hi")) "Username" = .error .errNotStruct ∧
    Kinds (.vString "hi") = .error .errNotStruct :=
  ⟨((C6_normalizer (.vPtr (.vPtr userV)) "Username" "json").2 (by decide)).2.2.2.1,
   ((C6_normalizer (.vNilPtr (.structT "User")) "Username" "json").2
      (by decide)).2.2.2.2.1,
   ((C6_normalizer (.vPtr (.vString "hi")) "Username" "json").2 (by decide)).2.1,
   ((C6_normalizer (.vString "hi") "Username" "json").2 (by decide)).2.2.2.2.2.2.2.2⟩

end Attr

namespace Attr

/-- C7: `Names` returns exactly the visible field names in declaration
order; with unique field names (as Go guarantees per struct type) the
result has no duplicates; `Values`, `Tags` and `Kinds` return maps whose
key sequence is exactly that name list, and `Tags` maps every visible
field whose tag set lacks the key to the empty string instead of omitting
it. -/
theorem C7_enumeration (tn : String) (fs : List (Field GoVal)) (tagKey : String)
    (hnd : (fs.map (fun f => f.name)).Nodup) :
    Names (.vStruct tn fs) =
      .ok ((fs.filter (fun f => isExported f.name)).map (fun f => f.name)) ∧
    ((fs.filter (fun f => isExported f.name)).map (fun f => f.name)).Nodup ∧
    Values (.vStruct tn fs) =
      .ok ((fs.filter (fun f => isExported f.name)).map
        (fun f => (f.name, f.val))) ∧
    ((fs.filter (fun f => isExported f.name)).map
        (fun f => (f.name, f.val))).map Prod.fst =
      (fs.filter (fun f => isExported f.name)).map (fun f => f.name) ∧
    Tags (.vStruct tn fs) tagKey =
      .ok ((fs.filter (fun f => isExported f.name)).map
        (fun f => (f.name, tagGet f.tags tagKey))) ∧
    ((fs.filter (fun f => isExported f.name)).map
        (fun f => (f.name, tagGet f.tags tagKey))).map Prod.fst =
      (fs.filter (fun f => isExported f.name)).map (fun f => f.name) ∧
    Kinds (.vStruct tn fs) =
      .ok ((fs.filter (fun f => isExported f.name)).map
        (fun f => (f.name, kindString (kindOfType f.typ)))) ∧
    ((fs.filter (fun f => isExported f.name)).map
        (fun f => (f.name, kindString (kindOfType f.typ)))).map Prod.fst =
      (fs.filter (fun f => isExported f.name)).map (fun f => f.name) ∧
    (∀ f ∈ fs, isExported f.name = true →
      f.tags.find? (fun p => p.1 == tagKey) = none →
      (f.name, "") ∈ (fs.filter (fun f => isExported f.name)).map
        (fun f => (f.name, tagGet f.tags tagKey))) := by
  refine ⟨?_, ?_, ?_, ?_, ?_, ?_, ?_, ?_, ?_⟩
  · simp [Names, getReflectValue, kindOf, structFields, Except.instMonad, Except.bind]
  · exact ((List.filter_sublist fs).map (fun f => f.name)).nodup hnd
  · simp [Values, getReflectValue, kindOf, structFields, Except.instMonad, Except.bind]
  · simp [List.map_map, Function.comp]
  · simp [Tags, getReflectValue, kindOf, structFields, Except.instMonad, Except.bind]
  · simp [List.map_map, Function.comp]
  · simp [Kinds, getReflectValue, kindOf, structFields, Except.instMonad, Except.bind]
  · simp [List.map_map, Function.comp]
  · intro f hmem hvis htag
    have hval : tagGet f.tags tagKey = "" := by simp [tagGet, htag]
    have : f ∈ fs.filter (fun f => isExported f.name) :=
      List.mem_filter.mpr ⟨hmem, hvis⟩
    simpa [hval] using List.mem_map_of_mem (fun f => (f.name, tagGet f.tags tagKey)) this

/-- C7 witness: on the test user with tag key `db`, the names are
`Username, Age` in declaration order, the key sequences of all three maps
agree with it, and `Age`, which lacks a `db` tag, maps to the empty
string. -/
theorem C7_enumeration_witness :
    Names userV = .ok ["Username", "Age"] ∧
    Tags userV "db" = .ok [("Username", "uname"), ("Age", "")] ∧
    ("Age", "") ∈ [("Username", "uname"), ("Age", "")] := by
  have h := C7_enumeration "User" userFields "db" (by decide)
  exact ⟨h.1, h.2.2.2.2.1, by simp⟩

/-- C8: each enumeration operation fails exactly when normalization fails,
and then with the normalizer's own `ErrNotStruct`; when normalization
succeeds they all succeed, returning the (possibly empty) visible-field
results, with no other failure mode. -/
theorem C8_enum_total (obj : GoVal) (tagKey : String) :
    (∀ e, getReflectValue obj = .error e →
      e = .errNotStruct ∧
      Names obj = .error e ∧
      Values obj = .error e ∧
      Tags obj tagKey = .error e ∧
      Kinds obj = .error e) ∧
    (∀ s, getReflectValue obj = .ok s →
      Names obj =
        .ok (((structFields s).filter (fun f => isExported f.name)).map
          (fun f => f.name)) ∧
      Values obj =
        .ok (((structFields s).filter (fun f => isExported f.name)).map
          (fun f => (f.name, f.val))) ∧
      Tags obj tagKey =
        .ok (((structFields s).filter (fun f => isExported f.name)).map
          (fun f => (f.name, tagGet f.tags tagKey))) ∧
      Kinds obj =
        .ok (((structFields s).filter (fun f => isExported f.name)).map
          (fun f => (f.name, kindString (kindOfType f.typ))))) := by
  constructor
  · intro e he
    have hnot : e = .errNotStruct := by
      unfold getReflectValue at he
      split at he
      · cases he
      · split at he
        · cases he
        · cases he
          rfl
    refine ⟨hnot, ?_, ?_, ?_, ?_⟩ <;>
      simp [Names, Values, Tags, Kinds, he, Except.instMonad, Except.bind]
  · intro s hs
    refine ⟨?_, ?_, ?_, ?_⟩ <;>
      simp [Names, Values, Tags, Kinds, hs, Except.instMonad, Except.bind]

/-- C8 witness: on a struct with no exported fields the four enumerators
return empty results rather than an error, and on an `int` input they all
return the normalizer's `ErrNotStruct`. -/
theorem C8_enum_total_witness :
    Names (.vStruct "Empty" []) = .ok [] ∧
    Values (.vStruct "Empty" []) = .ok [] ∧
    Names (.vInt 7) = .error .errNotStruct ∧
    Tags (.vInt 7) "json" = .error .errNotStruct := by
  have hok := (C8_enum_total (.vStruct "Empty" []) "json").2 (.vStruct "Empty" []) rfl
  have herr := (C8_enum_total (.vInt 7) "json").1 .errNotStruct rfl
  exact ⟨hok.1, hok.2.1, herr.2.1, herr.2.2.2.1⟩

end Attr

namespace Attr

/-- `setFieldVal` keeps the field count. -/
theorem setFieldVal_length (fs : List (Field GoVal)) (n : String) (v : GoVal) :
    (setFieldVal fs n v).length = fs.length := by
  induction fs with
  | nil => rfl
  | cons g gs ih => simp [setFieldVal, ih]

/-- Positional characterization of `setFieldVal`: position `i` holds the
old field, with its value replaced exactly when its name matches. -/
theorem setFieldVal_getElem? (fs : List (Field GoVal)) (n : String) (v : GoVal)
    (i : Nat) :
    (setFieldVal fs n v)[i]? =
      fs[i]?.map (fun g => if g.name == n then { g with val := v } else g) := by
  induction fs generalizing i with
  | nil => simp [setFieldVal]
  | cons g gs ih =>
    cases i with
    | zero => simp [setFieldVal]
    | succ j => simpa [setFieldVal] using ih j

/-- C9: a successful `SetValue` through a pointer updates exactly the
named field of the pointee: the struct's identity (type name) is kept,
the field count is kept, every field at a position whose name differs is
bitwise unchanged, the named field now holds the new value, and writing
back the field's current value succeeds and returns the struct completely
unchanged (idempotence). -/
theorem C9_frame (tn : String) (fs : List (Field GoVal)) (fname : String)
    (f : Field GoVal) (v : GoVal)
    (hnd : (fs.map (fun g => g.name)).Nodup)
    (hf : fieldByName fs fname = some f)
    (hvis : isExported f.name = true)
    (htyp : typeOf v = some f.typ) :
    SetValue (.vPtr (.vStruct tn fs)) fname v =
      .ok (.vStruct tn (setFieldVal fs fname v)) ∧
    (setFieldVal fs fname v).length = fs.length ∧
    (∀ (i : Nat) (g : Field GoVal), fs[i]? = some g → g.name ≠ fname →
      (setFieldVal fs fname v)[i]? = some g) ∧
    fieldByName (setFieldVal fs fname v) fname = some { f with val := v } ∧
    (v = f.val →
      SetValue (.vPtr (.vStruct tn fs)) fname v = .ok (.vStruct tn fs)) := by
  have hset : SetValue (.vPtr (.vStruct tn fs)) fname v =
      .ok (.vStruct tn (setFieldVal fs fname v)) := by
    simp [SetValue, kindOf, elemVal, structFields, structName, hf, htyp, hvis]
  refine ⟨hset, setFieldVal_length fs fname v, ?_, fieldByName_setFieldVal v hf, ?_⟩
  · intro i g hg hne
    rw [setFieldVal_getElem?, hg]
    simp [hne]
  · intro hv
    rw [hset, hv, setFieldVal_self hnd hf]

/-- C9 witness: writing `Age`'s current value `30` back through the
pointer succeeds and returns the identical struct, and the `Username`
field at position `0` is untouched. -/
theorem C9_frame_witness :
    SetValue (.vPtr userV) "Age" (.vInt 30) = .ok (.vStruct "User" userFields) ∧
    (setFieldVal userFields "Age" (.vInt 30))[0]? = some
      { name := "Username", typ := .stringT,
        tags := [("json", "username"), ("db", "uname")],
        val := .vString "srathi" } := by
  have h := C9_frame "User" userFields "Age" ageF (.vInt 30)
    (by decide) rfl rfl rfl
  exact ⟨h.2.2.2.2 rfl, h.2.2.1 0 _ rfl (by decide)⟩

/-- C10: with a nil new value, whose runtime type is the nil type and so
never equals the declared type of any existing field — pointer-, slice-,
map- and interface-typed fields included — `SetValue` through a pointer
fails with `ErrMismatchValue`, leaving the struct unchanged (an error
carries no updated struct). -/
theorem C10_set_nil (tn : String) (fs : List (Field GoVal)) (fname : String)
    (f : Field GoVal) (hf : fieldByName fs fname = some f) :
    SetValue (.vPtr (.vStruct tn fs)) fname .vNil = .error .errMismatchValue := by
  have ht' : some f.typ ≠ typeOf GoVal.vNil := by simp [typeOf]
  simp [SetValue, kindOf, elemVal, structFields, hf, ht']

/-- Fields of pointer, slice, map and interface declared types, for which
Go itself would allow a plain nil assignment. -/
def nilableFields : List (Field GoVal) :=
  [{ name := "P", typ := .ptrT .intT, tags := [], val := .vNilPtr .intT },
   { name := "S", typ := .sliceT .intT, tags := [], val := .vSlice .intT [] },
   { name := "M", typ := .mapT .stringT .intT, tags := [],
     val := .vMapV .stringT .intT [] },
   { name := "I", typ := .interfaceT, tags := [], val := .vInt 1 }]

/-- C10 witness: on a struct whose four fields have pointer, slice, map
and interface declared types, setting each to nil fails with
`ErrMismatchValue`. -/
theorem C10_set_nil_witness :
    SetValue (.vPtr (.vStruct "N" nilableFields)) "P" .vNil =
      .error .errMismatchValue ∧
    SetValue (.vPtr (.vStruct "N" nilableFields)) "S" .vNil =
      .error .errMismatchValue ∧
    SetValue (.vPtr (.vStruct "N" nilableFields)) "M" .vNil =
      .error .errMismatchValue ∧
    SetValue (.vPtr (.vStruct "N" nilableFields)) "I" .vNil =
      .error .errMismatchValue :=
  ⟨C10_set_nil "N" nilableFields "P"
      { name := "P", typ := .ptrT .intT, tags := [], val := .vNilPtr .intT } rfl,
   C10_set_nil "N" nilableFields "S"
      { name := "S", typ := .sliceT .intT, tags := [], val := .vSlice .intT [] } rfl,
   C10_set_nil "N" nilableFields "M"
      { name := "M", typ := .mapT .stringT .intT, tags := [],
        val := .vMapV .stringT .intT [] } rfl,
   C10_set_nil "N" nilableFields "I"
      { name := "I", typ := .interfaceT, tags := [], val := .vInt 1 } rfl⟩

end Attr
